import Mathlib

/-!
Shallow embedding of the Gridly UE plugin's JSON data-table importer
(`FGridlyDataTableImporterJSON` in
`Source/Gridly/Public/GridlyDataTableImporterJSON.cpp`) and exporter
(`FGridlyExporter::ConvertToJson` over a `UGridlyDataTable` in
`Source/GridlyEditor/Private/GridlyExporter.cpp`).

External collaborators (the engine JSON value type, the reflection system
and its string-coercion helpers) are embedded as small total functions that
mirror the observable contract the source relies on:

* `Json` mirrors `FJsonValue` with its `TryGet*` coercions;
* `FProperty` mirrors the reflected field-descriptor hierarchy; string
  coercion (`DataTableUtils::AssignStringToProperty[Direct]`) is embedded
  as a per-property whitelist of accepted strings, which is enough to
  represent both its success and its failure outcomes;
* `Value` is the decoded content of one raw property slot; a record
  instance is one list of slots per declared field (a field of static
  arity N owns N slots).

The preprocessor flags `HS_GRIDLY_ALLOW_ARBITARY_STRUCT_IN_TABLE` and
`HS_GRIDLY_ALLOW_SET_PROPERTYTYPE_IN_TABLE` are not defined anywhere in the
repository, so the embedding follows the compiled-out branches: the
struct-level scalar read ignores the result of `ReadStructEntry`
(no double-encoded-string retry), and the exporter serializes array/set
fields through the generic string branch.
-/

namespace Gridly

/-- Engine JSON value (`FJsonValue`): null / bool / number / string /
array / object, where an object is an ordered association list.
Doubles are represented by integers: no claim depends on non-integral
numeric content. -/
inductive Json where
  | jnull
  | jbool (b : Bool)
  | jnum (v : Int)
  | jstr (s : String)
  | jarr (elems : List Json)
  | jobj (fields : List (String × Json))
deriving Repr

/-- `FJsonValue::TryGetString`: succeeds on strings, numbers and booleans
(numbers and booleans stringify), fails on null/array/object. -/
def Json.tryGetString : Json → Option String
  | .jstr s => some s
  | .jnum v => some (toString v)
  | .jbool b => some (if b then "true" else "false")
  | _ => none

/-- `FJsonValue::TryGetNumber(int64&)`: numbers always convert, booleans
convert to 0/1, numeric strings parse, everything else fails. -/
def Json.tryGetInt : Json → Option Int
  | .jnum v => some v
  | .jbool b => some (if b then 1 else 0)
  | .jstr s => s.toInt?
  | _ => none

/-- `FJsonValue::TryGetNumber(double&)`: same acceptance set as the integer
conversion in this integral model. -/
def Json.tryGetDouble : Json → Option Int
  | .jnum v => some v
  | .jbool b => some (if b then 1 else 0)
  | .jstr s => s.toInt?
  | _ => none

/-- `FJsonValue::TryGetBool`: booleans directly, numbers by non-zero test,
strings by `FString::ToBool`. -/
def Json.tryGetBool : Json → Option Bool
  | .jbool b => some b
  | .jnum v => some (v ≠ 0)
  | .jstr s => some (s = "true" || s = "1" || s = "yes")
  | _ => none

/-- `FJsonValue::TryGetArray`. -/
def Json.tryGetArray : Json → Option (List Json)
  | .jarr es => some es
  | _ => none

/-- `FJsonValue::TryGetObject`. -/
def Json.tryGetObject : Json → Option (List (String × Json))
  | .jobj fs => some fs
  | _ => none

/-- Whether `FJsonValue::AsObject` yields a valid object. -/
def Json.isObj : Json → Bool
  | .jobj _ => true
  | _ => false

/-- Whether the value is a JSON array. -/
def Json.isArr : Json → Bool
  | .jarr _ => true
  | _ => false

/-- `GridlyDataTableJSONUtils::JSONTypeToString`. -/
def Json.typeName : Json → String
  | .jnull => "Null"
  | .jbool _ => "Boolean"
  | .jnum _ => "Number"
  | .jstr _ => "String"
  | .jarr _ => "Array"
  | .jobj _ => "Object"

/-- Reflection data shared by all field kinds: the export (column) name
(`DataTableUtils::GetPropertyExportName`), the accepted import names
(`DataTableUtils::GetPropertyImportNames`; the export name is listed among
them by the engine), the static arity (`FProperty::ArrayDim`, 1 for plain
fields) and the `DataTableImportOptional` metadata flag. -/
structure FieldInfo where
  exportName : String
  importNames : List String
  arrayDim : Nat
  importOptional : Bool
deriving Repr, DecidableEq

/-- The reflected field-descriptor hierarchy, one constructor per dynamic
type test performed by the source (`FEnumProperty`, `FNumericProperty`,
`FBoolProperty`, `FArrayProperty`, `FSetProperty`, `FMapProperty`,
`FStructProperty`, and the generic fallback). The string-coercion
collaborator (`AssignStringToProperty` / `AssignStringToPropertyDirect`)
is embedded as the whitelist of strings it accepts for that property
(`validEnums` / `keyValid` / `strValid`). -/
inductive FProperty where
  | enumP (info : FieldInfo) (validEnums : List String)
  | numP (info : FieldInfo) (isEnum : Bool) (isInteger : Bool) (validEnums : List String)
  | boolP (info : FieldInfo)
  | arrayP (info : FieldInfo) (inner : FProperty)
  | setP (info : FieldInfo) (elem : FProperty)
  | mapP (info : FieldInfo) (keyValid : List String) (valueProp : FProperty)
  | structP (info : FieldInfo) (fields : List FProperty) (strValid : List String)
  | otherP (info : FieldInfo) (strValid : List String)
deriving Repr

/-- The shared reflection data of a property. -/
def FProperty.info : FProperty → FieldInfo
  | .enumP i _ => i
  | .numP i _ _ _ => i
  | .boolP i => i
  | .arrayP i _ => i
  | .setP i _ => i
  | .mapP i _ _ => i
  | .structP i _ _ => i
  | .otherP i _ => i

/-- Whether the property is an array, set or map property — the kinds the
container-entry codec rejects outright. -/
def FProperty.isContainerKind : FProperty → Bool
  | .arrayP _ _ => true
  | .setP _ _ => true
  | .mapP _ _ _ => true
  | _ => false

/-- Decoded content of one raw property slot. `vDefault` is the
zero/default-initialized state left by `InitializeStruct` (or by a
container helper's `AddDefaultValue`). Sets and maps carry the number of
`Rehash` calls performed on them since they were last emptied, so that the
"insert all, rehash once at the end" discipline is observable. -/
inductive Value where
  | vDefault
  | vStr (s : String)
  | vInt (n : Int)
  | vFloat (n : Int)
  | vBool (b : Bool)
  | vArr (elems : List Value)
  | vSet (elems : List Value) (rehashes : Nat)
  | vMap (entries : List (String × Value)) (rehashes : Nat)
  | vStruct (slots : List (List Value))
deriving Repr

/-- Default (zero-initialized) value of one slot of a property. -/
def defaultValue : FProperty → Value
  | .enumP _ _ => .vDefault
  | .numP _ _ _ _ => .vDefault
  | .boolP _ => .vDefault
  | .arrayP _ _ => .vArr []
  | .setP _ _ => .vSet [] 0
  | .mapP _ _ _ => .vMap [] 0
  | .structP _ fields _ =>
    .vStruct (fields.attach.map fun p => List.replicate p.1.info.arrayDim (defaultValue p.1))
  | .otherP _ _ => .vDefault
termination_by p => sizeOf p
decreasing_by
  simp_wf
  have h := List.sizeOf_lt_of_mem p.2
  omega

/-- Default slots of a record instance: one list of `arrayDim` default
values per declared field. -/
def defaultSlots (fields : List FProperty) : List (List Value) :=
  fields.map fun p => List.replicate p.info.arrayDim (defaultValue p)

/-- The slots of a nested-struct slot value: a `vStruct` exposes its
slots, anything else (never produced by the walker for a struct slot)
falls back to the default instance. -/
def structSlots (fields : List FProperty) : Value → List (List Value)
  | .vStruct slots => slots
  | _ => defaultSlots fields

/-- Table policy flags the importer reads from the data table
(`UDataTable::ImportKeyField`, `UGridlyDataTable::AllowDuplicateRowsOnImport`,
`UDataTable::bIgnoreExtraFields`, `UDataTable::bIgnoreMissingFields`). -/
structure TableConfig where
  importKeyField : String
  allowDuplicates : Bool
  ignoreExtraFields : Bool
  ignoreMissingFields : Bool
deriving Repr, DecidableEq

/-- `GridlyDataTableJSONUtils::GetKeyFieldName`: the explicit key field
name, defaulting to "Name" when unset. -/
def getKeyFieldName (cfg : TableConfig) : String :=
  if cfg.importKeyField = "" then "Name" else cfg.importKeyField

/-- First value bound to a key in a JSON object (`FJsonObject::TryGetField`). -/
def lookupJ (obj : List (String × Json)) (k : String) : Option Json :=
  (obj.find? fun p => p.1 = k).map Prod.snd

/-- `FJsonObject::GetStringField`: the field's string coercion, or the
empty string when absent or not coercible. -/
def getStringField (obj : List (String × Json)) (k : String) : String :=
  ((lookupJ obj k).bind Json.tryGetString).getD ""

/-- `DataTableUtils::MakeValidName`: identifier sanitization, embedded as
the identity (no claim distinguishes sanitized spellings). -/
def makeValidName (s : String) : String := s

/-- `FName::IsNone` after construction from a string: true for the empty
string and for the literal spelling "None". -/
def isNoneName (s : String) : Bool := s = "" || s = "None"

/-- First accepted import name of the field that is present in the JSON
object, in import-name order (`ReadStruct`'s alias loop). -/
def findAlias (obj : List (String × Json)) (p : FProperty) : Option Json :=
  go p.info.importNames
where
  go : List String → Option Json
    | [] => none
    | n :: rest =>
      match lookupJ obj n with
      | some v => some v
      | none => go rest

/-! Problem strings, one constructor per `ImportProblems.Add` site of the
source (apostrophes and quotes are dropped from the renderings; only the
identity and count of appended problems matter to the claims). -/

/-- "Input data is empty." -/
def msgInputEmpty : String := "Input data is empty."

/-- "No RowStruct specified." -/
def msgNoRowStruct : String := "No RowStruct specified."

/-- "Failed to parse the JSON data. Error: ..." -/
def msgParseFail : String := "Failed to parse the JSON data."

/-- "Row %d is not a valid JSON object." -/
def msgRowNotObject (idx : Nat) : String :=
  "Row " ++ toString idx ++ " is not a valid JSON object."

/-- "Failed to read row %d." -/
def msgFailedReadRow (idx : Nat) : String :=
  "Failed to read row " ++ toString idx ++ "."

/-- "Row %d missing key field %s." -/
def msgMissingKey (idx : Nat) (key : String) : String :=
  "Row " ++ toString idx ++ " missing key field " ++ key ++ "."

/-- "Duplicate row name %s." -/
def msgDuplicateRow (name : String) : String :=
  "Duplicate row name " ++ name ++ "."

/-- "Property %s on row %s cannot be found in struct %s." -/
def msgExtraProp (prop row : String) : String :=
  "Property " ++ prop ++ " on row " ++ row ++ " cannot be found in struct."

/-- "Row %s is missing an entry for %s." -/
def msgMissingEntry (row col : String) : String :=
  "Row " ++ row ++ " is missing an entry for " ++ col ++ "."

/-- "Property %s on row %s is the incorrect type. Expected %s, got %s." -/
def msgWrongType (col row expected got : String) : String :=
  "Property " ++ col ++ " on row " ++ row ++ " is the incorrect type. Expected "
    ++ expected ++ ", got " ++ got ++ "."

/-- "Property %s on row %s is a static sized array with %d elements, but we
have %d values to import" -/
def msgStaticSize (col row : String) (dim n : Nat) : String :=
  "Property " ++ col ++ " on row " ++ row ++ " is a static sized array with "
    ++ toString dim ++ " elements, but we have " ++ toString n ++ " values to import"

/-- "Property %s on row %s has invalid enum value: %s." -/
def msgInvalidEnum (col row s : String) : String :=
  "Property " ++ col ++ " on row " ++ row ++ " has invalid enum value: " ++ s ++ "."

/-- "Problem assigning string %s to property %s on row %s : %s" -/
def msgAssignFail (s col row : String) : String :=
  "Problem assigning string " ++ s ++ " to property " ++ col ++ " on row " ++ row

/-- "Problem assigning key %s to property %s on row %s : %s" -/
def msgAssignKeyFail (k col row : String) : String :=
  "Problem assigning key " ++ k ++ " to property " ++ col ++ " on row " ++ row

/-- "Entry %d on property %s on row %s is the incorrect type. Expected %s,
got %s." -/
def msgWrongTypeEntry (idx : Nat) (col row expected got : String) : String :=
  "Entry " ++ toString idx ++ " on property " ++ col ++ " on row " ++ row
    ++ " is the incorrect type. Expected " ++ expected ++ ", got " ++ got ++ "."

/-- "Entry %d on property %s on row %s has invalid enum value: %s." -/
def msgInvalidEnumEntry (idx : Nat) (col row s : String) : String :=
  "Entry " ++ toString idx ++ " on property " ++ col ++ " on row " ++ row
    ++ " has invalid enum value: " ++ s ++ "."

/-- "Problem assigning string %s to entry %d on property %s on row %s : %s" -/
def msgAssignEntryFail (idx : Nat) (s col row : String) : String :=
  "Problem assigning string " ++ s ++ " to entry " ++ toString idx
    ++ " on property " ++ col ++ " on row " ++ row

/-- Result of one walker call: the updated decoded content, the problems
it appended to the shared log, and its boolean return. -/
structure RResult (α : Type) where
  val : α
  probs : List String
  ok : Bool
deriving Repr

mutual

/-- `FGridlyDataTableImporterJSON::ReadStruct`: walk the declared fields in
order; `slots` holds the record instance content, one list of `arrayDim`
slots per field. The scalar (`ArrayDim == 1`) path ignores the entry
codec's boolean; a static-array field whose matched value is not a JSON
array aborts the walk with `false`. -/
def readStructFields (cfg : TableConfig) (obj : List (String × Json)) (rowName : String) :
    (flds : List FProperty) → (slots : List (List Value)) → RResult (List (List Value))
  | [], _ => ⟨[], [], true⟩
  | p :: rest, slots =>
    let colName := p.info.exportName
    let slot := slots.headD (List.replicate p.info.arrayDim (defaultValue p))
    let restSlots := slots.tail
    match findAlias obj p with
    | none =>
      let here : List String :=
        if p.info.importOptional then []
        else if cfg.ignoreMissingFields then []
        else [msgMissingEntry rowName colName]
      let r := readStructFields cfg obj rowName rest restSlots
      ⟨slot :: r.val, here ++ r.probs, r.ok⟩
    | some v =>
      if p.info.arrayDim = 1 then
        let e := readStructEntry cfg v rowName colName p (slot.headD (defaultValue p))
        let r := readStructFields cfg obj rowName rest restSlots
        ⟨[e.val] :: r.val, e.probs ++ r.probs, r.ok⟩
      else
        match v with
        | .jarr vals =>
          let sizeProbs : List String :=
            if p.info.arrayDim = vals.length then []
            else [msgStaticSize colName rowName p.info.arrayDim vals.length]
          let fr := readFixedLoop cfg vals rowName colName p slot 0
          let r := readStructFields cfg obj rowName rest restSlots
          ⟨fr.1 :: r.val, sizeProbs ++ fr.2 ++ r.probs, r.ok⟩
        | v =>
          ⟨slot :: restSlots, [msgWrongType colName rowName "Array" v.typeName], false⟩
termination_by flds slots => (sizeOf flds, 0)

/-- The static-array index loop of `ReadStruct`: every index of the field
that is a valid index of the JSON array is decoded through the container
entry codec; out-of-range indices keep their current content. -/
def readFixedLoop (cfg : TableConfig) (vals : List Json) (rowName colName : String) (p : FProperty) :
    (slot : List Value) → (i : Nat) → List Value × List String
  | [], _ => ([], [])
  | v :: restSlot, i =>
    match vals.get? i with
    | some jv =>
      let e := readContainerEntry cfg jv rowName colName i p v
      let rest := readFixedLoop cfg vals rowName colName p restSlot (i + 1)
      (e.val :: rest.1, e.probs ++ rest.2)
    | none =>
      let rest := readFixedLoop cfg vals rowName colName p restSlot (i + 1)
      (v :: rest.1, rest.2)
termination_by slot i => (sizeOf p, slot.length)

/-- `FGridlyDataTableImporterJSON::ReadStructEntry`: decode one JSON value
into one property slot, dispatching on the dynamic property kind. -/
def readStructEntry (cfg : TableConfig) (j : Json) (rowName colName : String) :
    (p : FProperty) → (cur : Value) → RResult Value
  | .enumP _ valid, cur =>
    match j.tryGetString with
    | some s =>
      if s ∈ valid then ⟨.vStr s, [], true⟩
      else ⟨cur, [msgInvalidEnum colName rowName s], false⟩
    | none =>
      match j.tryGetInt with
      | some n => ⟨.vInt n, [], true⟩
      | none => ⟨cur, [msgWrongType colName rowName "Integer" j.typeName], false⟩
  | .numP _ isEnum isInteger valid, cur =>
    match isEnum, j.tryGetString with
    | true, some s =>
      if s ∈ valid then ⟨.vStr s, [], true⟩
      else ⟨cur, [msgInvalidEnum colName rowName s], false⟩
    | _, _ =>
      if isInteger then
        match j.tryGetInt with
        | some n => ⟨.vInt n, [], true⟩
        | none => ⟨cur, [msgWrongType colName rowName "Integer" j.typeName], false⟩
      else
        match j.tryGetDouble with
        | some n => ⟨.vFloat n, [], true⟩
        | none => ⟨cur, [msgWrongType colName rowName "Double" j.typeName], false⟩
  | .boolP _, cur =>
    match j.tryGetBool with
    | some b => ⟨.vBool b, [], true⟩
    | none => ⟨cur, [msgWrongType colName rowName "Boolean" j.typeName], false⟩
  | .arrayP _ inner, cur =>
    match j.tryGetArray with
    | none => ⟨cur, [msgWrongType colName rowName "Array" j.typeName], false⟩
    | some es =>
      let lr := readArrLoop cfg rowName colName inner es 0
      ⟨.vArr lr.1, lr.2, true⟩
  | .setP _ elem, cur =>
    match j.tryGetArray with
    | none => ⟨cur, [msgWrongType colName rowName "Array" j.typeName], false⟩
    | some es =>
      let lr := readArrLoop cfg rowName colName elem es 0
      ⟨.vSet lr.1 1, lr.2, true⟩
  | .mapP _ keyValid valueProp, cur =>
    match j.tryGetObject with
    | none => ⟨cur, [msgWrongType colName rowName "Object" j.typeName], false⟩
    | some pairs =>
      let r := readMapLoop cfg rowName colName keyValid valueProp pairs 0
      if r.ok then ⟨.vMap r.val 1, r.probs, true⟩
      else ⟨.vMap r.val 0, r.probs, false⟩
  | .structP _ fields strValid, cur =>
    match j.tryGetObject with
    | some pairs =>
      let r := readStructFields cfg pairs rowName fields (structSlots fields cur)
      ⟨.vStruct r.val, r.probs, r.ok⟩
    | none =>
      match j.tryGetString with
      | none => ⟨cur, [msgWrongType colName rowName "String" j.typeName], false⟩
      | some s =>
        if s ∈ strValid then ⟨.vStr s, [], true⟩
        else ⟨cur, [msgAssignFail s colName rowName], false⟩
  | .otherP _ strValid, cur =>
    match j.tryGetString with
    | none => ⟨cur, [msgWrongType colName rowName "String" j.typeName], false⟩
    | some s =>
      if s ∈ strValid then ⟨.vStr s, [], true⟩
      else ⟨cur, [msgAssignFail s colName rowName], false⟩
termination_by p cur => (sizeOf p, 0)

/-- The dynamic-array / set element loop of `ReadStructEntry`: one
default-initialized element is appended per JSON entry and decoded through
the container entry codec; the codec's boolean is ignored. -/
def readArrLoop (cfg : TableConfig) (rowName colName : String) (inner : FProperty) :
    (es : List Json) → (i : Nat) → List Value × List String
  | [], _ => ([], [])
  | e :: rest, i =>
    let r := readContainerEntry cfg e rowName colName i inner (defaultValue inner)
    let lr := readArrLoop cfg rowName colName inner rest (i + 1)
    (r.val :: lr.1, r.probs ++ lr.2)
termination_by es i => (sizeOf inner, es.length)

/-- The map entry loop of `ReadStructEntry`: entries are processed in
document order; a key-coercion failure or a value-decode failure removes
the just-added entry and fails the whole field immediately. -/
def readMapLoop (cfg : TableConfig) (rowName colName : String) (keyValid : List String) (valueProp : FProperty) :
    (pairs : List (String × Json)) → (i : Nat) → RResult (List (String × Value))
  | [], _ => ⟨[], [], true⟩
  | (k, jv) :: rest, i =>
    if k ∈ keyValid then
      let r := readContainerEntry cfg jv rowName colName i valueProp (defaultValue valueProp)
      if r.ok then
        let rr := readMapLoop cfg rowName colName keyValid valueProp rest (i + 1)
        ⟨(k, r.val) :: rr.val, r.probs ++ rr.probs, rr.ok⟩
      else
        ⟨[], r.probs, false⟩
    else
      ⟨[], [msgAssignKeyFail k colName rowName], false⟩
termination_by pairs i => (sizeOf valueProp, pairs.length)

/-- `FGridlyDataTableImporterJSON::ReadContainerEntry`: decode one element
of an array, set, map or static array. Array, set and map element kinds
are rejected with a silent `false`; struct and scalar kinds dispatch as in
the struct entry codec, with the entry index added to messages. -/
def readContainerEntry (cfg : TableConfig) (j : Json) (rowName colName : String) (idx : Nat) :
    (p : FProperty) → (cur : Value) → RResult Value
  | .enumP _ valid, cur =>
    match j.tryGetString with
    | some s =>
      if s ∈ valid then ⟨.vStr s, [], true⟩
      else ⟨cur, [msgInvalidEnumEntry idx colName rowName s], false⟩
    | none =>
      match j.tryGetInt with
      | some n => ⟨.vInt n, [], true⟩
      | none => ⟨cur, [msgWrongTypeEntry idx colName rowName "Integer" j.typeName], false⟩
  | .numP _ isEnum isInteger valid, cur =>
    match isEnum, j.tryGetString with
    | true, some s =>
      if s ∈ valid then ⟨.vStr s, [], true⟩
      else ⟨cur, [msgInvalidEnumEntry idx colName rowName s], false⟩
    | _, _ =>
      if isInteger then
        match j.tryGetInt with
        | some n => ⟨.vInt n, [], true⟩
        | none => ⟨cur, [msgWrongTypeEntry idx colName rowName "Integer" j.typeName], false⟩
      else
        match j.tryGetDouble with
        | some n => ⟨.vFloat n, [], true⟩
        | none => ⟨cur, [msgWrongTypeEntry idx colName rowName "Double" j.typeName], false⟩
  | .boolP _, cur =>
    match j.tryGetBool with
    | some b => ⟨.vBool b, [], true⟩
    | none => ⟨cur, [msgWrongTypeEntry idx colName rowName "Boolean" j.typeName], false⟩
  | .arrayP _ _, cur => ⟨cur, [], false⟩
  | .setP _ _, cur => ⟨cur, [], false⟩
  | .mapP _ _ _, cur => ⟨cur, [], false⟩
  | .structP _ fields strValid, cur =>
    match j.tryGetObject with
    | some pairs =>
      let r := readStructFields cfg pairs rowName fields (structSlots fields cur)
      ⟨.vStruct r.val, r.probs, r.ok⟩
    | none =>
      match j.tryGetString with
      | none => ⟨cur, [msgWrongType colName rowName "String" j.typeName], false⟩
      | some s =>
        if s ∈ strValid then ⟨.vStr s, [], true⟩
        else ⟨cur, [msgAssignEntryFail idx s colName rowName], false⟩
  | .otherP _ strValid, cur =>
    match j.tryGetString with
    | none => ⟨cur, [msgWrongTypeEntry idx colName rowName "String" j.typeName], false⟩
    | some s =>
      if s ∈ strValid then ⟨.vStr s, [], true⟩
      else ⟨cur, [msgAssignEntryFail idx s colName rowName], false⟩
termination_by p cur => (sizeOf p, 0)

end

/-- A record instance: one list of `arrayDim` slots per declared field. -/
abbrev Instance := List (List Value)

/-- The table's row mapping, an ordered association from row name to
record instance (`UDataTable::RowMap`). -/
abbrev RowMap := List (String × Instance)

/-- `TMap::Add` semantics used by `UGridlyDataTable::AddRowInternal` (and
by the in-place mutation of a registered row's raw memory): replace the
bound instance when the key exists, append otherwise. -/
def upsertRow (m : RowMap) (k : String) (v : Instance) : RowMap :=
  if (m.find? fun p => p.1 = k).isSome then
    m.map fun p => if p.1 = k then (k, v) else p
  else
    m ++ [(k, v)]

/-- `TMap::Find` on the row mapping. -/
def lookupRow (m : RowMap) (k : String) : Option Instance :=
  (m.find? fun p => p.1 = k).map Prod.snd

/-- Whether a JSON key of a row object matches some declared field, by
property name (`FindFProperty`) or by accepted import name
(`GetPropertyImportNames().Contains`). -/
def matchesAnyField (flds : List FProperty) (key : String) : Bool :=
  flds.any fun p => p.info.exportName = makeValidName key || key ∈ p.info.importNames

/-- The extra-field scan of `ReadRow` (active when `bIgnoreExtraFields` is
unset): every JSON key other than the key field that matches no declared
field logs one problem; no key aborts the row. -/
def extraFieldProblems (cfg : TableConfig) (flds : List FProperty) (rowName : String)
    (obj : List (String × Json)) : List String :=
  let rowKey := getKeyFieldName cfg
  obj.filterMap fun pair =>
    if pair.1 = rowKey then none
    else if matchesAnyField flds pair.1 then none
    else some (msgExtraProp (makeValidName pair.1) rowName)

/-- Result of `ReadRow` / `ReadTable`: the updated row mapping, the
appended problems, and the boolean return. -/
structure RowMapResult where
  rowMap : RowMap
  probs : List String
  ok : Bool
deriving Repr

/-- `FGridlyDataTableImporterJSON::ReadRow`: resolve the row key, enforce
the duplicate policy, run the extra-field scan, then register the
default-initialized instance in the row mapping *before* delegating to the
struct walker; the walker mutates the registered memory in place, so the
row stays registered with the walker's (possibly partial) output even when
the walker returns false. -/
def readRow (cfg : TableConfig) (flds : List FProperty) (obj : List (String × Json))
    (rowIdx : Nat) (rowMap : RowMap) : RowMapResult :=
  let rowKey := getKeyFieldName cfg
  let rowName := makeValidName (getStringField obj rowKey)
  if isNoneName rowName then
    ⟨rowMap, [msgMissingKey rowIdx rowKey], false⟩
  else if !cfg.allowDuplicates && (lookupRow rowMap rowName).isSome then
    ⟨rowMap, [msgDuplicateRow rowName], false⟩
  else
    let extraProbs := if cfg.ignoreExtraFields then [] else extraFieldProblems cfg flds rowName obj
    let inst := defaultSlots flds
    let registered := upsertRow rowMap rowName inst
    let r := readStructFields cfg obj rowName flds inst
    ⟨upsertRow registered rowName r.val, extraProbs ++ r.probs, r.ok⟩

/-- The row iteration of `ReadTable`: each top-level element is processed
independently; a non-object element logs one problem and is skipped, a
failing `ReadRow` logs one "failed to read row" problem after the row's
own problems, and iteration always continues. -/
def readTableLoop (cfg : TableConfig) (flds : List FProperty) :
    (rows : List Json) → (idx : Nat) → (rowMap : RowMap) → RowMap × List String
  | [], _, m => (m, [])
  | r :: rest, idx, m =>
    match r with
    | .jobj obj =>
      let rr := readRow cfg flds obj idx m
      let failProbs := if rr.ok then [] else [msgFailedReadRow idx]
      let lr := readTableLoop cfg flds rest (idx + 1) rr.rowMap
      (lr.1, rr.probs ++ failProbs ++ lr.2)
    | _ =>
      let lr := readTableLoop cfg flds rest (idx + 1) m
      (lr.1, msgRowNotObject idx :: lr.2)

/-- `FGridlyDataTableImporterJSON::ReadTable`. `text` is the raw input
text and `parsed` the outcome of the external
`FJsonSerializer::Deserialize` on it (`none` for a parse failure). The
source treats a successful parse producing zero rows exactly like a parse
failure (`!Deserialize(...) || ParsedTableRows.Num() == 0`). On success
the existing rows are emptied before the row loop, and the call returns
true no matter how many rows failed. -/
def readTable (text : String) (rowStruct : Option (List FProperty)) (parsed : Option (List Json))
    (cfg : TableConfig) (rowMap : RowMap) : RowMapResult :=
  if text = "" then ⟨rowMap, [msgInputEmpty], false⟩
  else
    match rowStruct with
    | none => ⟨rowMap, [msgNoRowStruct], false⟩
    | some flds =>
      match parsed with
      | none => ⟨rowMap, [msgParseFail], false⟩
      | some rows =>
        if rows.isEmpty then ⟨rowMap, [msgParseFail], false⟩
        else
          let lr := readTableLoop cfg flds rows 0 []
          ⟨lr.1, lr.2, true⟩

/-! ## Exporter (`FGridlyExporter::ConvertToJson` over a `UGridlyDataTable`) -/

/-- One call into the engine's streaming JSON writer (`TJsonWriter`). -/
inductive WTok where
  | arrStart
  | arrStartNamed (ident : String)
  | arrEnd
  | objStart
  | objEnd
  | valStr (ident : String) (v : String)
  | valInt (ident : String) (v : Int)
  | valFloat (ident : String) (v : Int)
  | valBool (ident : String) (v : Bool)
deriving Repr, DecidableEq

/-- Scope delta of one writer call. -/
def WTok.openDelta : WTok → Int
  | .arrStart => 1
  | .arrStartNamed _ => 1
  | .objStart => 1
  | .objEnd => -1
  | .arrEnd => -1
  | _ => 0

/-- `TJsonWriter::Close`: succeeds when every opened scope was ended. -/
def closeOk (toks : List WTok) : Bool :=
  (toks.foldl
    (fun acc t =>
      match acc with
      | none => none
      | some d => if t.openDelta < 0 && d = 0 then none else some (d + t.openDelta))
    (some (0 : Int))) = some 0

/-- `DataTableUtils::GetPropertyValueAsString`, embedded as a simple total
stringification of the decoded slot content. -/
def valueToExportString : Value → String
  | .vDefault => ""
  | .vStr s => s
  | .vInt n => toString n
  | .vFloat n => toString n
  | .vBool b => if b then "True" else "False"
  | .vArr _ => ""
  | .vSet _ _ => ""
  | .vMap _ _ => ""
  | .vStruct _ => ""

/-- `FNumericProperty::GetSignedIntPropertyValue` /
`GetFloatingPointPropertyValue` on a decoded slot. -/
def valueToInt : Value → Int
  | .vInt n => n
  | .vFloat n => n
  | _ => 0

/-- `FBoolProperty::GetPropertyValue` on a decoded slot. -/
def valueToBool : Value → Bool
  | .vBool b => b
  | _ => false

/-- The `{columnId, value}` cell written for one exported scalar field:
enums (and enum-tagged numerics) stringify, integer numerics write an
integer, other numerics a double, booleans a boolean, and every remaining
kind the generic string form (the array/set branches are compiled out). -/
def cellToks (p : FProperty) (v : Value) : List WTok :=
  [WTok.objStart, WTok.valStr "columnId" p.info.exportName] ++
  (match p with
  | .enumP _ _ => [WTok.valStr "value" (valueToExportString v)]
  | .numP _ isEnum isInteger _ =>
    if isEnum then [WTok.valStr "value" (valueToExportString v)]
    else if isInteger then [WTok.valInt "value" (valueToInt v)]
    else [WTok.valFloat "value" (valueToInt v)]
  | .boolP _ => [WTok.valBool "value" (valueToBool v)]
  | _ => [WTok.valStr "value" (valueToExportString v)]) ++
  [WTok.objEnd]

/-- The per-field loop of the export row body: a field whose export name
is "_path" is captured into the path variable (last such field wins) and
never produces a cell; any other field of static arity 1 produces one
cell; fields of other arities produce nothing. Returns the cell tokens
and the captured path value. -/
def exportCellsLoop : List (FProperty × Value) → List WTok × Option String
  | [] => ([], none)
  | (p, v) :: rest =>
    let r := exportCellsLoop rest
    if p.info.exportName = "_path" then
      (r.1, r.2 <|> some (valueToExportString v))
    else if p.info.arrayDim = 1 then
      (cellToks p v ++ r.1, r.2)
    else
      r

/-- One exported row object: the id, the cells array, then the sibling
"path" value (the captured path field's string, or the empty string). -/
def exportRow (flds : List FProperty) (name : String) (vals : List Value) : List WTok :=
  let r := exportCellsLoop (flds.zip vals)
  [WTok.objStart, WTok.valStr "id" name, WTok.arrStartNamed "cells"] ++
  r.1 ++
  [WTok.arrEnd, WTok.valStr "path" (r.2.getD ""), WTok.objEnd]

/-- The exporter's view of a data table: the optional record type
descriptor and the rows (key plus one decoded slot value per field, the
value at static index 0). -/
structure ExportTable where
  rowStruct : Option (List FProperty)
  rows : List (String × List Value)

/-- `FGridlyExporter::ConvertToJson(UGridlyDataTable*, ...)`: fails when
the record type descriptor is absent; writes the array start, then, only
when `startIndex` is within range, the rows of
`[startIndex, min(startIndex+maxSize, rowCount))`, the array end and the
`Close` check. When `startIndex` is out of range the array is never ended,
`Close` is never called, and the call returns false. -/
def convertToJson (tbl : ExportTable) (startIndex maxSize : Nat) : List WTok × Bool :=
  match tbl.rowStruct with
  | none => ([], false)
  | some flds =>
    let toks0 := [WTok.arrStart]
    if startIndex < tbl.rows.length then
      let endIndex := min (startIndex + maxSize) tbl.rows.length
      let page := (tbl.rows.drop startIndex).take (endIndex - startIndex)
      let toks := toks0 ++ (page.map fun kv => exportRow flds kv.1 kv.2).flatten ++ [WTok.arrEnd]
      (toks, closeOk toks)
    else
      (toks0, false)

/-- Whether every entry of a JSON object decodes into a map field: the key
passes string coercion against `kv` and the value passes the container
entry codec for `vp`, with the entry index counting from `i`. -/
def mapEntriesOk (cfg : TableConfig) (r c : String) (kv : List String) (vp : FProperty) :
    List (String × Json) → Nat → Bool
  | [], _ => true
  | (k, jv) :: rest, i =>
    decide (k ∈ kv) && (readContainerEntry cfg jv r c i vp (defaultValue vp)).ok
      && mapEntriesOk cfg r c kv vp rest (i + 1)

/-- The decoded entries of a map field, in document order, with the entry
index counting from `i`. -/
def mapDecode (cfg : TableConfig) (r c : String) (vp : FProperty) :
    List (String × Json) → Nat → List (String × Value)
  | [], _ => []
  | (k, jv) :: rest, i =>
    (k, (readContainerEntry cfg jv r c i vp (defaultValue vp)).val)
      :: mapDecode cfg r c vp rest (i + 1)

/-! Concrete tables, schemas and rows used to instantiate the theorems. -/

/-- A table configuration: default key field, duplicates disallowed, no
ignore policies. -/
def exCfg : TableConfig := ⟨"", false, false, false⟩

/-- An export table with one row and a present (empty) record type. -/
def exTable : ExportTable := ⟨some [], [("r0", [])]⟩

/-- A field of static arity 2. -/
def exStaticInfo : FieldInfo := ⟨"B", ["B"], 2, false⟩

/-- A schema with a single fixed-size-array field. -/
def exStaticFlds : List FProperty := [.otherP exStaticInfo []]

/-- A row object whose "B" value is a string, not an array: the struct
walker hard-fails on it. -/
def exRowObj : List (String × Json) := [("Name", Json.jstr "r1"), ("B", Json.jstr "oops")]

/-- The fixed-size-array field used for the pagination of valid indices. -/
def exFixedP : FProperty := .otherP ⟨"B", ["B"], 2, false⟩ ["ok1"]

/-- A row object whose "B" array has fewer entries than the field's
static arity. -/
def exFixedObj : List (String × Json) := [("B", Json.jarr [Json.jstr "ok1"])]

/-- A field named "_path". -/
def exPathInfo : FieldInfo := ⟨"_path", ["_path"], 1, false⟩

/-- An ordinary scalar field. -/
def exAInfo : FieldInfo := ⟨"A", ["A"], 1, false⟩

/-- A schema with a "_path" field and an ordinary field. -/
def exPathFlds : List FProperty := [.otherP exPathInfo [], .otherP exAInfo []]

/-- Row values for `exPathFlds`. -/
def exPathVals : List Value := [.vStr "p1", .vStr "x"]

/-- A schema without any "_path" field. -/
def exNoPathFlds : List FProperty := [.otherP exAInfo []]

/-- A map field's reflection data. -/
def exMapInfo : FieldInfo := ⟨"M", ["M"], 1, false⟩

/-- An integer-valued map value property. -/
def exMapValueP : FProperty := .numP ⟨"V", ["V"], 1, false⟩ false true []

end Gridly

namespace Gridly

/-! ## Helper lemmas -/

/-- A cell written for a field not named "_path" never carries the
"_path" column id. -/
theorem cellToks_no_path_columnId (p : FProperty) (v : Value)
    (hname : p.info.exportName ≠ "_path") :
    WTok.valStr "columnId" "_path" ∉ cellToks p v := by
  cases p <;>
    simp_all [cellToks, FProperty.info] <;>
    first
      | (intro h; exact hname h.symm)
      | (split_ifs <;> simp_all <;> (intro h; exact hname h.symm))

/-- No cell of the export cell loop carries the "_path" column id. -/
theorem exportCellsLoop_no_path_cell (pairs : List (FProperty × Value)) :
    WTok.valStr "columnId" "_path" ∉ (exportCellsLoop pairs).1 := by
  induction pairs with
  | nil => simp [exportCellsLoop]
  | cons pv rest ih =>
    obtain ⟨p, v⟩ := pv
    by_cases hname : p.info.exportName = "_path"
    · simpa [exportCellsLoop, hname] using ih
    · by_cases hdim : p.info.arrayDim = 1
      · simp only [exportCellsLoop, hname, hdim, if_true, if_false, List.mem_append]
        rintro (h | h)
        · exact cellToks_no_path_columnId p v hname h
        · exact ih h
      · simpa [exportCellsLoop, hname, hdim] using ih

/-- Without a "_path" field the export cell loop captures no path value. -/
theorem exportCellsLoop_path_none (pairs : List (FProperty × Value))
    (h : ∀ pv ∈ pairs, pv.1.info.exportName ≠ "_path") :
    (exportCellsLoop pairs).2 = none := by
  induction pairs with
  | nil => simp [exportCellsLoop]
  | cons pv rest ih =>
    obtain ⟨p, v⟩ := pv
    have hp : p.info.exportName ≠ "_path" := h (p, v) (by simp)
    have hrest : ∀ pv ∈ rest, pv.1.info.exportName ≠ "_path" := fun pv hm => h pv (by simp [hm])
    by_cases hdim : p.info.arrayDim = 1 <;> simp [exportCellsLoop, hp, hdim, ih hrest]

/-- The last "_path" field of the row wins the captured path value. -/
theorem exportCellsLoop_path_last (pre : List (FProperty × Value)) (p : FProperty) (v : Value)
    (post : List (FProperty × Value)) (hp : p.info.exportName = "_path")
    (hpost : ∀ pv ∈ post, pv.1.info.exportName ≠ "_path") :
    (exportCellsLoop (pre ++ (p, v) :: post)).2 = some (valueToExportString v) := by
  induction pre with
  | nil => simp [exportCellsLoop, hp, exportCellsLoop_path_none post hpost]
  | cons qv restPre ih =>
    obtain ⟨q, w⟩ := qv
    by_cases hq : q.info.exportName = "_path"
    · simp [exportCellsLoop, hq, ih]
    · by_cases hdim : q.info.arrayDim = 1 <;> simp [exportCellsLoop, hq, hdim, ih]

/-- Replacing the instance bound to an existing key is visible to lookup. -/
theorem lookupRow_map_upsert (k : String) (v : Instance) :
    ∀ m : RowMap, (m.find? fun p => p.1 = k).isSome →
      lookupRow (m.map fun p => if p.1 = k then (k, v) else p) k = some v := by
  intro m
  induction m with
  | nil => intro h; simp at h
  | cons a m ih =>
    intro h
    by_cases ha : a.1 = k
    · unfold lookupRow
      rw [List.map_cons, if_pos ha, List.find?_cons_of_pos _ (by simp)]
      rfl
    · rw [List.find?_cons_of_neg _ (by simp [ha])] at h
      unfold lookupRow at ih ⊢
      rw [List.map_cons, if_neg ha, List.find?_cons_of_neg _ (by simp [ha])]
      exact ih h

/-- Appending a new key's instance is visible to lookup. -/
theorem lookupRow_append_new (k : String) (v : Instance) :
    ∀ m : RowMap, (m.find? fun p => p.1 = k) = none →
      lookupRow (m ++ [(k, v)]) k = some v := by
  intro m
  induction m with
  | nil =>
    intro _
    unfold lookupRow
    rw [List.nil_append, List.find?_cons_of_pos _ (by simp)]
    rfl
  | cons a m ih =>
    intro h
    have ha : ¬ (a.1 = k) := by
      intro hk
      rw [List.find?_cons_of_pos _ (by simp [hk])] at h
      cases h
    rw [List.find?_cons_of_neg _ (by simp [ha])] at h
    unfold lookupRow at ih ⊢
    rw [List.cons_append, List.find?_cons_of_neg _ (by simp [ha])]
    exact ih h

/-- After `upsertRow`, the key maps to the upserted instance. -/
theorem lookupRow_upsertRow (m : RowMap) (k : String) (v : Instance) :
    lookupRow (upsertRow m k v) k = some v := by
  unfold upsertRow
  by_cases h : (m.find? fun p => p.1 = k).isSome
  · simp only [h, if_true]
    exact lookupRow_map_upsert k v m h
  · simp only [h, if_false]
    refine lookupRow_append_new k v m ?_
    rcases hfind : (m.find? fun p => p.1 = k) with _ | x
    · exact hfind
    · rw [hfind] at h; simp at h

/-- A field with no matching alias never changes the walker's boolean. -/
theorem readStructFields_ok_cons_missing (cfg : TableConfig) (obj : List (String × Json))
    (rowName : String) (p : FProperty) (rest : List FProperty) (slots : List (List Value))
    (hfa : findAlias obj p = none) :
    (readStructFields cfg obj rowName (p :: rest) slots).ok
      = (readStructFields cfg obj rowName rest slots.tail).ok := by
  simp [readStructFields, hfa]

/-- A matched field of static arity 1 never changes the walker's boolean. -/
theorem readStructFields_ok_cons_dim1 (cfg : TableConfig) (obj : List (String × Json))
    (rowName : String) (p : FProperty) (rest : List FProperty) (slots : List (List Value))
    (v : Json) (hfa : findAlias obj p = some v) (hdim : p.info.arrayDim = 1) :
    (readStructFields cfg obj rowName (p :: rest) slots).ok
      = (readStructFields cfg obj rowName rest slots.tail).ok := by
  simp [readStructFields, hfa, hdim]

/-- A static-array field whose matched value is an array never changes the
walker's boolean. -/
theorem readStructFields_ok_cons_fixed_arr (cfg : TableConfig) (obj : List (String × Json))
    (rowName : String) (p : FProperty) (rest : List FProperty) (slots : List (List Value))
    (vals : List Json) (hfa : findAlias obj p = some (Json.jarr vals))
    (hdim : p.info.arrayDim ≠ 1) :
    (readStructFields cfg obj rowName (p :: rest) slots).ok
      = (readStructFields cfg obj rowName rest slots.tail).ok := by
  simp [readStructFields, hfa, hdim]

/-- A static-array field whose matched value is not an array aborts the
walker with false. -/
theorem readStructFields_ok_cons_fixed_notarr (cfg : TableConfig) (obj : List (String × Json))
    (rowName : String) (p : FProperty) (rest : List FProperty) (slots : List (List Value))
    (v : Json) (hfa : findAlias obj p = some v) (hdim : p.info.arrayDim ≠ 1)
    (harr : v.isArr = false) :
    (readStructFields cfg obj rowName (p :: rest) slots).ok = false := by
  cases v <;> simp_all [readStructFields, Json.isArr]

/-- Element `k` of the static-array loop output: decoded through the
container entry codec when the JSON array covers index `i + k`, kept
as-is otherwise. -/
theorem readFixedLoop_get (cfg : TableConfig) (vals : List Json) (r c : String) (p : FProperty) :
    ∀ (slot : List Value) (i k : Nat),
      ((readFixedLoop cfg vals r c p slot i).1)[k]? =
        (slot[k]?).map fun v =>
          match vals[i + k]? with
          | some jv => (readContainerEntry cfg jv r c (i + k) p v).val
          | none => v := by
  intro slot
  induction slot with
  | nil => intro i k; simp [readFixedLoop]
  | cons v restSlot ih =>
    intro i k
    cases k with
    | zero =>
      rcases hv : vals[i]? with _ | jv <;>
        simp [readFixedLoop, hv, Nat.add_zero]
    | succ k =>
      have harith : i + (k + 1) = (i + 1) + k := by omega
      rcases hv : vals[i]? with _ | jv <;>
        simp [readFixedLoop, hv, harith, ih (i + 1) k]

/-- The dynamic container loop appends exactly one element per JSON
entry. -/
theorem readArrLoop_length (cfg : TableConfig) (r c : String) (inner : FProperty) :
    ∀ (es : List Json) (i : Nat), (readArrLoop cfg r c inner es i).1.length = es.length := by
  intro es
  induction es with
  | nil => intro i; simp [readArrLoop]
  | cons e rest ih => intro i; simp [readArrLoop, ih]

/-- Element `k` of the dynamic container loop output is the container
entry codec's result on JSON entry `k`, whether or not the codec
succeeded. -/
theorem readArrLoop_get (cfg : TableConfig) (r c : String) (inner : FProperty) :
    ∀ (es : List Json) (i k : Nat),
      ((readArrLoop cfg r c inner es i).1)[k]? =
        (es[k]?).map fun e =>
          (readContainerEntry cfg e r c (i + k) inner (defaultValue inner)).val := by
  intro es
  induction es with
  | nil => intro i k; simp [readArrLoop]
  | cons e rest ih =>
    intro i k
    cases k with
    | zero => simp [readArrLoop]
    | succ k =>
      have harith : i + (k + 1) = (i + 1) + k := by omega
      simp [readArrLoop, harith, ih (i + 1) k]

/-- When every map entry decodes, the map loop yields all decoded entries
in document order and returns true. -/
theorem readMapLoop_success (cfg : TableConfig) (r c : String) (kv : List String)
    (vp : FProperty) :
    ∀ (pairs : List (String × Json)) (i : Nat),
      mapEntriesOk cfg r c kv vp pairs i = true →
      (readMapLoop cfg r c kv vp pairs i).val = mapDecode cfg r c vp pairs i
      ∧ (readMapLoop cfg r c kv vp pairs i).ok = true := by
  intro pairs
  induction pairs with
  | nil => intro i _; constructor <;> simp [readMapLoop, mapDecode]
  | cons pair rest ih =>
    obtain ⟨k, jv⟩ := pair
    intro i h
    simp only [mapEntriesOk, Bool.and_eq_true, decide_eq_true_eq] at h
    obtain ⟨⟨hk, hok⟩, hrest⟩ := h
    obtain ⟨ihv, ihok⟩ := ih (i + 1) hrest
    constructor <;> simp [readMapLoop, mapDecode, hk, hok, ihv, ihok]

/-- When the first failing map entry fails (bad key or bad value), the
map loop yields only the entries decoded before it and returns false. -/
theorem readMapLoop_failure (cfg : TableConfig) (r c : String) (kv : List String)
    (vp : FProperty) :
    ∀ (pre : List (String × Json)) (k : String) (jv : Json) (post : List (String × Json))
      (i : Nat),
      mapEntriesOk cfg r c kv vp pre i = true →
      (k ∉ kv ∨ (readContainerEntry cfg jv r c (i + pre.length) vp (defaultValue vp)).ok
        = false) →
      (readMapLoop cfg r c kv vp (pre ++ (k, jv) :: post) i).val = mapDecode cfg r c vp pre i
      ∧ (readMapLoop cfg r c kv vp (pre ++ (k, jv) :: post) i).ok = false := by
  intro pre
  induction pre with
  | nil =>
    intro k jv post i _ hfail
    rcases hfail with hk | hok
    · constructor <;> simp [readMapLoop, mapDecode, hk]
    · by_cases hk : k ∈ kv
      · constructor <;> simp_all [readMapLoop, mapDecode]
      · constructor <;> simp [readMapLoop, mapDecode, hk]
  | cons pair rest ih =>
    obtain ⟨k0, jv0⟩ := pair
    intro k jv post i hpre hfail
    simp only [mapEntriesOk, Bool.and_eq_true, decide_eq_true_eq] at hpre
    obtain ⟨⟨hk0, hok0⟩, hrest⟩ := hpre
    have harith : (i + 1) + rest.length = i + (rest.length + 1) := by omega
    have := ih k jv post (i + 1) hrest (by rw [harith] at *; simpa using hfail)
    constructor <;> simp [readMapLoop, mapDecode, hk0, hok0, this.1, this.2]

end Gridly

namespace Gridly

/-! ## Claim theorems -/

/-- Claim C1, counterexample: a one-row table exported with
`startIndex = 20` does not produce an empty JSON array with `ok = true`;
the call returns false and the array is never terminated. -/
theorem convertToJson_out_of_range_cex :
    ¬ ((convertToJson exTable 20 3).1 = [WTok.arrStart, WTok.arrEnd]
        ∧ (convertToJson exTable 20 3).2 = true) := by
  simp [convertToJson, exTable]

/-- Claim C1, amended: for every table whose record type descriptor is
non-null and every `startIndex` at or past the number of rows,
`ConvertToJson` writes only the array start (the array is never ended and
the writer is never closed) and returns `ok = false`. -/
theorem convertToJson_out_of_range (tbl : ExportTable) (flds : List FProperty)
    (startIndex maxSize : Nat) (hrs : tbl.rowStruct = some flds)
    (h : tbl.rows.length ≤ startIndex) :
    convertToJson tbl startIndex maxSize = ([WTok.arrStart], false) := by
  simp [convertToJson, hrs, Nat.not_lt.mpr h]

/-- Claim C1, witness: the amended statement at the one-row table with
`startIndex = 20`. -/
theorem convertToJson_out_of_range_witness :
    convertToJson exTable 20 3 = ([WTok.arrStart], false) :=
  convertToJson_out_of_range exTable [] 20 3 rfl (by decide)

/-- Claim C2, counterexample: a non-empty input text whose top-level parse
succeeds with an empty array makes `ReadTable` return false even though
none of the claimed failure conditions holds. -/
theorem readTable_empty_array_cex :
    (readTable "[]" (some []) (some []) exCfg []).ok = false
    ∧ ¬("[]" = "" ∨ (some ([] : List FProperty)) = none
        ∨ (some ([] : List Json)) = none) := by
  constructor
  · simp [readTable, exCfg]
  · simp

/-- Claim C2, amended: `ReadTable` returns false if and only if the input
text is empty, the record type descriptor is null, the top-level parse
fails, or the parse succeeds with a zero-element array; for every other
input it returns true regardless of how many rows fail. -/
theorem readTable_false_iff (text : String) (rowStruct : Option (List FProperty))
    (parsed : Option (List Json)) (cfg : TableConfig) (rowMap : RowMap) :
    (readTable text rowStruct parsed cfg rowMap).ok = false ↔
      (text = "" ∨ rowStruct = none ∨ parsed = none ∨ parsed = some []) := by
  by_cases htext : text = ""
  · simp [readTable, htext]
  · cases rowStruct with
    | none => simp [readTable, htext]
    | some flds =>
      cases parsed with
      | none => simp [readTable, htext]
      | some rows =>
        cases rows with
        | nil => simp [readTable, htext]
        | cons r rest => simp [readTable, htext]

/-- Claim C3: each top-level element is processed independently — the call
succeeds whenever the parsed array is non-empty, a non-object element
appends exactly one problem and leaves the row mapping unchanged, and a
failing `ReadRow` appends exactly one extra row-level problem after the
row's own problems while iteration continues. -/
theorem readTable_row_isolation (cfg : TableConfig) (flds : List FProperty) :
    (∀ (text : String) (parsed : Option (List Json)) (rows : List Json) (rowMap : RowMap),
      text ≠ "" → parsed = some rows → rows ≠ [] →
      (readTable text (some flds) parsed cfg rowMap).ok = true)
    ∧ (∀ (j : Json) (rest : List Json) (idx : Nat) (m : RowMap), j.isObj = false →
        readTableLoop cfg flds (j :: rest) idx m =
          ((readTableLoop cfg flds rest (idx + 1) m).1,
            msgRowNotObject idx :: (readTableLoop cfg flds rest (idx + 1) m).2))
    ∧ (∀ (obj : List (String × Json)) (rest : List Json) (idx : Nat) (m : RowMap),
        (readRow cfg flds obj idx m).ok = false →
        readTableLoop cfg flds (Json.jobj obj :: rest) idx m =
          ((readTableLoop cfg flds rest (idx + 1) (readRow cfg flds obj idx m).rowMap).1,
            (readRow cfg flds obj idx m).probs ++ [msgFailedReadRow idx]
              ++ (readTableLoop cfg flds rest (idx + 1)
                    (readRow cfg flds obj idx m).rowMap).2)) := by
  refine ⟨?_, ?_, ?_⟩
  · intro text parsed rows rowMap htext hparsed hrows
    subst hparsed
    simp [readTable, htext, hrows]
  · intro j rest idx m hobj
    cases j <;> simp_all [readTableLoop, Json.isObj]
  · intro obj rest idx m hfail
    simp [readTableLoop, hfail]

/-- Claim C3, witness: a one-element batch with a string element, and a
one-element batch whose row object is missing the key field. -/
theorem readTable_row_isolation_witness :
    (readTable "x" (some []) (some [Json.jstr "bad"]) exCfg []).ok = true
    ∧ readTableLoop exCfg [] [Json.jstr "bad"] 0 [] =
        ((readTableLoop exCfg [] [] 1 []).1,
          msgRowNotObject 0 :: (readTableLoop exCfg [] [] 1 []).2)
    ∧ readTableLoop exCfg [] [Json.jobj []] 0 [] =
        ((readTableLoop exCfg [] [] 1 (readRow exCfg [] [] 0 []).rowMap).1,
          (readRow exCfg [] [] 0 []).probs ++ [msgFailedReadRow 0]
            ++ (readTableLoop exCfg [] [] 1 (readRow exCfg [] [] 0 []).rowMap).2) :=
  ⟨(readTable_row_isolation exCfg []).1 "x" (some [Json.jstr "bad"]) [Json.jstr "bad"] []
      (by decide) rfl (by simp),
   (readTable_row_isolation exCfg []).2.1 (Json.jstr "bad") [] 0 [] (by decide),
   (readTable_row_isolation exCfg []).2.2 [] [] 0 [] (by decide)⟩

/-- Claim C4: for a row that passes the key and duplicate checks, the row
mapping binds the key to the struct walker's output and `ReadRow` returns
the walker's boolean — in particular, a failing walk leaves the row
registered with its partially populated instance (registration precedes
population; there is no rollback). -/
theorem readRow_registers_partial (cfg : TableConfig) (flds : List FProperty)
    (obj : List (String × Json)) (rowIdx : Nat) (rowMap : RowMap)
    (hname : isNoneName (makeValidName (getStringField obj (getKeyFieldName cfg))) = false)
    (hdup : cfg.allowDuplicates = true
      ∨ lookupRow rowMap (makeValidName (getStringField obj (getKeyFieldName cfg))) = none) :
    lookupRow (readRow cfg flds obj rowIdx rowMap).rowMap
        (makeValidName (getStringField obj (getKeyFieldName cfg)))
      = some (readStructFields cfg obj
          (makeValidName (getStringField obj (getKeyFieldName cfg)))
          flds (defaultSlots flds)).val
    ∧ (readRow cfg flds obj rowIdx rowMap).ok
      = (readStructFields cfg obj
          (makeValidName (getStringField obj (getKeyFieldName cfg)))
          flds (defaultSlots flds)).ok := by
  have hcond : (!cfg.allowDuplicates
      && (lookupRow rowMap
            (makeValidName (getStringField obj (getKeyFieldName cfg)))).isSome) = false := by
    rcases hdup with h | h <;> simp [h]
  unfold readRow
  simp only [hname, hcond, Bool.false_eq_true, if_false]
  exact ⟨lookupRow_upsertRow _ _ _, trivial⟩

/-- Claim C4, witness: a row whose struct walk fails (static-array field
matched by a string) still ends up registered with the walker's output. -/
theorem readRow_registers_partial_witness :
    lookupRow (readRow exCfg exStaticFlds exRowObj 0 []).rowMap "r1"
      = some (readStructFields exCfg exRowObj "r1" exStaticFlds
          (defaultSlots exStaticFlds)).val
    ∧ (readRow exCfg exStaticFlds exRowObj 0 []).ok
      = (readStructFields exCfg exRowObj "r1" exStaticFlds
          (defaultSlots exStaticFlds)).ok :=
  readRow_registers_partial exCfg exStaticFlds exRowObj 0 [] (by decide) (Or.inr rfl)

/-- Claim C5: for well-formed arities, the struct walker returns false if
and only if some declared field of static arity greater than 1 has a
matched JSON value that is not an array; a missing field is never fatal. -/
theorem readStructFields_false_iff (cfg : TableConfig) (obj : List (String × Json))
    (rowName : String) :
    ∀ (flds : List FProperty) (slots : List (List Value)),
    (∀ p ∈ flds, 1 ≤ p.info.arrayDim) →
    ((readStructFields cfg obj rowName flds slots).ok = false ↔
      ∃ p ∈ flds, 1 < p.info.arrayDim ∧ ∃ v, findAlias obj p = some v ∧ v.isArr = false) := by
  intro flds
  induction flds with
  | nil => intro slots _; simp [readStructFields]
  | cons p rest ih =>
    intro slots hwf
    have hp := hwf p (by simp)
    have hrest : ∀ q ∈ rest, 1 ≤ q.info.arrayDim := fun q hq => hwf q (by simp [hq])
    have expand : (∃ q ∈ p :: rest, 1 < q.info.arrayDim ∧
        ∃ v, findAlias obj q = some v ∧ v.isArr = false) ↔
        ((1 < p.info.arrayDim ∧ ∃ v, findAlias obj p = some v ∧ v.isArr = false) ∨
          ∃ q ∈ rest, 1 < q.info.arrayDim ∧ ∃ v, findAlias obj q = some v ∧ v.isArr = false) := by
      constructor
      · rintro ⟨q, hq, h⟩
        rcases List.mem_cons.mp hq with rfl | hq2
        · exact Or.inl h
        · exact Or.inr ⟨q, hq2, h⟩
      · rintro (h | ⟨q, hq, h⟩)
        · exact ⟨p, List.mem_cons_self p rest, h⟩
        · exact ⟨q, List.mem_cons_of_mem p hq, h⟩
    rw [expand]
    rcases hfa : findAlias obj p with _ | v
    · rw [readStructFields_ok_cons_missing _ _ _ _ _ _ hfa, ih slots.tail hrest]
      simp [hfa]
    · by_cases hdim : p.info.arrayDim = 1
      · rw [readStructFields_ok_cons_dim1 _ _ _ _ _ _ v hfa hdim, ih slots.tail hrest]
        simp [hdim]
      · rcases harr : v.isArr with _ | _
        · rw [readStructFields_ok_cons_fixed_notarr _ _ _ _ _ _ v hfa hdim harr]
          simp only [true_iff]
          exact Or.inl ⟨by omega, v, rfl, harr⟩
        · cases v with
          | jarr vals =>
            rw [readStructFields_ok_cons_fixed_arr _ _ _ _ _ _ vals hfa hdim,
              ih slots.tail hrest]
            simp [hfa, Json.isArr]
          | jnull => cases harr
          | jbool b => cases harr
          | jnum n => cases harr
          | jstr s => cases harr
          | jobj o => cases harr

/-- Claim C5, witness: the characterization at a schema holding one
fixed-size-array field matched by a string value. -/
theorem readStructFields_false_iff_witness :
    (readStructFields exCfg exRowObj "r1" exStaticFlds (defaultSlots exStaticFlds)).ok = false ↔
      ∃ p ∈ exStaticFlds, 1 < p.info.arrayDim
        ∧ ∃ v, findAlias exRowObj p = some v ∧ v.isArr = false :=
  readStructFields_false_iff exCfg exRowObj "r1" exStaticFlds (defaultSlots exStaticFlds)
    (by decide)

end Gridly

namespace Gridly

/-- Claim C6: for a map field whose JSON value is an object, entries are
decoded in document order; when every entry decodes, the field holds all
decoded entries and is rehashed exactly once after the loop; when the
first failing entry fails (key coercion or value decode), the just-added
entry is removed — the field holds only the entries decoded before it, no
rehash happens, and the whole field fails. -/
theorem readStructEntry_map_field (cfg : TableConfig) (r c : String) (info : FieldInfo)
    (kv : List String) (vp : FProperty) (cur : Value) :
    (∀ pairs, mapEntriesOk cfg r c kv vp pairs 0 = true →
      (readStructEntry cfg (.jobj pairs) r c (.mapP info kv vp) cur).val
          = .vMap (mapDecode cfg r c vp pairs 0) 1
      ∧ (readStructEntry cfg (.jobj pairs) r c (.mapP info kv vp) cur).ok = true)
    ∧ (∀ pre k jv post, mapEntriesOk cfg r c kv vp pre 0 = true →
        (k ∉ kv ∨ (readContainerEntry cfg jv r c pre.length vp (defaultValue vp)).ok = false) →
        (readStructEntry cfg (.jobj (pre ++ (k, jv) :: post)) r c (.mapP info kv vp) cur).val
            = .vMap (mapDecode cfg r c vp pre 0) 0
        ∧ (readStructEntry cfg (.jobj (pre ++ (k, jv) :: post)) r c (.mapP info kv vp) cur).ok
            = false) := by
  constructor
  · intro pairs h
    obtain ⟨hval, hok⟩ := readMapLoop_success cfg r c kv vp pairs 0 h
    constructor <;> simp [readStructEntry, Json.tryGetObject, hval, hok]
  · intro pre k jv post hpre hfail
    obtain ⟨hval, hok⟩ := readMapLoop_failure cfg r c kv vp pre k jv post 0 hpre
      (by simpa using hfail)
    constructor <;> simp [readStructEntry, Json.tryGetObject, hval, hok]

/-- Claim C6, witness: an integer-valued map decoding `{a: 1}` keeps the
entry and rehashes once; decoding `{a: 1, b: null}` keeps only entry "a",
does not rehash, and fails the field. -/
theorem readStructEntry_map_field_witness :
    ((readStructEntry exCfg (.jobj [("a", Json.jnum 1)]) "r" "M"
        (.mapP exMapInfo ["a", "b"] exMapValueP) (.vMap [] 0)).val
      = .vMap [("a", Value.vInt 1)] 1
      ∧ (readStructEntry exCfg (.jobj [("a", Json.jnum 1)]) "r" "M"
          (.mapP exMapInfo ["a", "b"] exMapValueP) (.vMap [] 0)).ok = true)
    ∧ ((readStructEntry exCfg (.jobj [("a", Json.jnum 1), ("b", Json.jnull)]) "r" "M"
        (.mapP exMapInfo ["a", "b"] exMapValueP) (.vMap [] 0)).val
      = .vMap [("a", Value.vInt 1)] 0
      ∧ (readStructEntry exCfg (.jobj [("a", Json.jnum 1), ("b", Json.jnull)]) "r" "M"
          (.mapP exMapInfo ["a", "b"] exMapValueP) (.vMap [] 0)).ok = false) := by
  have hentry : (readContainerEntry exCfg (Json.jnum 1) "r" "M" 0 exMapValueP
        (defaultValue exMapValueP)).val = Value.vInt 1
      ∧ (readContainerEntry exCfg (Json.jnum 1) "r" "M" 0 exMapValueP
        (defaultValue exMapValueP)).ok = true := by
    constructor <;> simp [readContainerEntry, exMapValueP, Json.tryGetString, Json.tryGetInt]
  have hbad : (readContainerEntry exCfg Json.jnull "r" "M" 1 exMapValueP
      (defaultValue exMapValueP)).ok = false := by
    simp [readContainerEntry, exMapValueP, Json.tryGetString, Json.tryGetInt]
  constructor
  · have h := (readStructEntry_map_field exCfg "r" "M" exMapInfo ["a", "b"] exMapValueP
      (.vMap [] 0)).1 [("a", Json.jnum 1)] (by simp [mapEntriesOk, hentry.2])
    refine ⟨?_, h.2⟩
    rw [h.1]
    simp [mapDecode, hentry.1]
  · have h := (readStructEntry_map_field exCfg "r" "M" exMapInfo ["a", "b"] exMapValueP
      (.vMap [] 0)).2 [("a", Json.jnum 1)] "b" Json.jnull []
      (by simp [mapEntriesOk, hentry.2]) (Or.inr (by simpa using hbad))
    simp only [List.cons_append, List.nil_append] at h
    refine ⟨?_, h.2⟩
    rw [h.1]
    simp [mapDecode, hentry.1]

/-- Claim C7: the container entry codec rejects array, set and map element
kinds outright (silent false, no problem, slot unchanged — one level of
container nesting is the maximum), a field holding such rejected entries
still succeeds (so sibling fields import), and every non-container kind
produces the same decoded value and the same boolean as the struct entry
codec. -/
theorem readContainerEntry_nesting (cfg : TableConfig) (j : Json) (r c : String) (i : Nat) :
    (∀ info inner cur, readContainerEntry cfg j r c i (.arrayP info inner) cur = ⟨cur, [], false⟩)
    ∧ (∀ info elem cur, readContainerEntry cfg j r c i (.setP info elem) cur = ⟨cur, [], false⟩)
    ∧ (∀ info kv vp cur, readContainerEntry cfg j r c i (.mapP info kv vp) cur = ⟨cur, [], false⟩)
    ∧ (∀ info inner cur (es : List Json),
        (readStructEntry cfg (.jarr es) r c (.arrayP info inner) cur).ok = true)
    ∧ (∀ p cur, p.isContainerKind = false →
        (readContainerEntry cfg j r c i p cur).val = (readStructEntry cfg j r c p cur).val
        ∧ (readContainerEntry cfg j r c i p cur).ok = (readStructEntry cfg j r c p cur).ok) := by
  refine ⟨?_, ?_, ?_, ?_, ?_⟩
  · intro info inner cur; simp [readContainerEntry]
  · intro info elem cur; simp [readContainerEntry]
  · intro info kv vp cur; simp [readContainerEntry]
  · intro info inner cur es; simp [readStructEntry, Json.tryGetArray]
  · intro p cur hk
    cases p with
    | enumP info valid =>
      rcases hs : j.tryGetString with _ | s
      · rcases hn : j.tryGetInt with _ | n <;>
          simp [readContainerEntry, readStructEntry, hs, hn]
      · by_cases hv : s ∈ valid <;>
          simp [readContainerEntry, readStructEntry, hs, hv]
    | numP info isEnum isInteger valid =>
      rcases hs : j.tryGetString with _ | s
      · cases isEnum <;> cases isInteger <;>
          [rcases hd : j.tryGetDouble with _ | d;
           rcases hn : j.tryGetInt with _ | n;
           rcases hd : j.tryGetDouble with _ | d;
           rcases hn : j.tryGetInt with _ | n] <;>
          simp_all [readContainerEntry, readStructEntry]
      · cases isEnum with
        | true =>
          by_cases hv : s ∈ valid <;> simp [readContainerEntry, readStructEntry, hs, hv]
        | false =>
          cases isInteger <;>
            [rcases hd : j.tryGetDouble with _ | d;
             rcases hn : j.tryGetInt with _ | n] <;>
            simp_all [readContainerEntry, readStructEntry]
    | boolP info =>
      rcases hb : j.tryGetBool with _ | b <;>
        simp [readContainerEntry, readStructEntry, hb]
    | arrayP info inner => simp [FProperty.isContainerKind] at hk
    | setP info elem => simp [FProperty.isContainerKind] at hk
    | mapP info kv vp => simp [FProperty.isContainerKind] at hk
    | structP info fields strValid =>
      rcases ho : j.tryGetObject with _ | pairs
      · rcases hs : j.tryGetString with _ | s
        · simp [readContainerEntry, readStructEntry, ho, hs]
        · by_cases hv : s ∈ strValid <;>
            simp [readContainerEntry, readStructEntry, ho, hs, hv]
      · simp [readContainerEntry, readStructEntry, ho]
    | otherP info strValid =>
      rcases hs : j.tryGetString with _ | s
      · simp [readContainerEntry, readStructEntry, hs]
      · by_cases hv : s ∈ strValid <;>
          simp [readContainerEntry, readStructEntry, hs, hv]

end Gridly

namespace Gridly

/-- Claim C7, witness: a boolean element kind decodes identically through
the container entry codec and the struct entry codec. -/
theorem readContainerEntry_nesting_witness :
    (readContainerEntry exCfg (Json.jstr "x") "r" "A" 0 (FProperty.boolP exAInfo)
        Value.vDefault).val
      = (readStructEntry exCfg (Json.jstr "x") "r" "A" (FProperty.boolP exAInfo)
          Value.vDefault).val
    ∧ (readContainerEntry exCfg (Json.jstr "x") "r" "A" 0 (FProperty.boolP exAInfo)
        Value.vDefault).ok
      = (readStructEntry exCfg (Json.jstr "x") "r" "A" (FProperty.boolP exAInfo)
          Value.vDefault).ok :=
  (readContainerEntry_nesting exCfg (Json.jstr "x") "r" "A" 0).2.2.2.2
    (FProperty.boolP exAInfo) Value.vDefault (by decide)

/-- Claim C8: for a fixed-size array field whose matched JSON value is an
array, every slot index covered by the JSON array is decoded through the
container entry codec independently (out-of-range indices keep their
content, a failing index never touches the others), the walker's boolean
is unchanged by the field, and a length mismatch logs the size-mismatch
problem while decoding still proceeds. -/
theorem readStruct_fixed_array (cfg : TableConfig) (obj : List (String × Json))
    (rowName : String) (p : FProperty) (rest : List FProperty) (slots : List (List Value))
    (vals : List Json) (hfa : findAlias obj p = some (Json.jarr vals))
    (hdim : p.info.arrayDim ≠ 1) :
    (∀ (slot : List Value) (i k : Nat),
      ((readFixedLoop cfg vals rowName p.info.exportName p slot i).1)[k]? =
        (slot[k]?).map fun v =>
          match vals[i + k]? with
          | some jv => (readContainerEntry cfg jv rowName p.info.exportName (i + k) p v).val
          | none => v)
    ∧ (readStructFields cfg obj rowName (p :: rest) slots).ok
        = (readStructFields cfg obj rowName rest slots.tail).ok
    ∧ (vals.length ≠ p.info.arrayDim →
        msgStaticSize p.info.exportName rowName p.info.arrayDim vals.length
          ∈ (readStructFields cfg obj rowName (p :: rest) slots).probs) := by
  refine ⟨readFixedLoop_get cfg vals rowName p.info.exportName p,
    readStructFields_ok_cons_fixed_arr cfg obj rowName p rest slots vals hfa hdim, ?_⟩
  intro hlen
  have hne : ¬ (p.info.arrayDim = vals.length) := fun h => hlen h.symm
  simp [readStructFields, hfa, hdim, hne]

/-- Claim C8, witness: an arity-2 field fed a one-element JSON array logs
the size mismatch and leaves the walker's boolean to the remaining
fields. -/
theorem readStruct_fixed_array_witness :
    (readStructFields exCfg exFixedObj "r" [exFixedP] (defaultSlots [exFixedP])).ok
      = (readStructFields exCfg exFixedObj "r" [] (defaultSlots [exFixedP]).tail).ok
    ∧ msgStaticSize "B" "r" 2 1
        ∈ (readStructFields exCfg exFixedObj "r" [exFixedP] (defaultSlots [exFixedP])).probs :=
  ⟨(readStruct_fixed_array exCfg exFixedObj "r" exFixedP [] (defaultSlots [exFixedP])
      [Json.jstr "ok1"] rfl (by decide)).2.1,
   (readStruct_fixed_array exCfg exFixedObj "r" exFixedP [] (defaultSlots [exFixedP])
      [Json.jstr "ok1"] rfl (by decide)).2.2 (by decide)⟩

/-- Claim C9: a field whose export name is "_path" never appears as a cell
(no cell in the whole row carries the "_path" column id); the row object
instead carries a sibling "path" value holding the stringified value of
the last "_path" field, or the empty string when no such field exists. -/
theorem exportRow_path_sibling (flds : List FProperty) (name : String) (vals : List Value) :
    WTok.valStr "columnId" "_path" ∉ exportRow flds name vals
    ∧ (∀ pre p v post, flds.zip vals = pre ++ (p, v) :: post →
        p.info.exportName = "_path" →
        (∀ pv ∈ post, pv.1.info.exportName ≠ "_path") →
        WTok.valStr "path" (valueToExportString v) ∈ exportRow flds name vals)
    ∧ ((∀ p ∈ flds, p.info.exportName ≠ "_path") →
        WTok.valStr "path" "" ∈ exportRow flds name vals) := by
  refine ⟨?_, ?_, ?_⟩
  · simp [exportRow, exportCellsLoop_no_path_cell]
  · intro pre p v post heq hp hpost
    simp [exportRow, heq, exportCellsLoop_path_last pre p v post hp hpost]
  · intro h
    have : (exportCellsLoop (flds.zip vals)).2 = none := by
      refine exportCellsLoop_path_none _ fun pv hm => ?_
      exact h pv.1 (List.of_mem_zip hm).1
    simp [exportRow, this]

/-- Claim C9, witness: a schema with a "_path" field emits its value as
the sibling "path" property and no "_path" cell; a schema without one
emits an empty "path". -/
theorem exportRow_path_sibling_witness :
    WTok.valStr "columnId" "_path" ∉ exportRow exPathFlds "r" exPathVals
    ∧ WTok.valStr "path" "p1" ∈ exportRow exPathFlds "r" exPathVals
    ∧ WTok.valStr "path" "" ∈ exportRow exNoPathFlds "r" [Value.vStr "x"] :=
  ⟨(exportRow_path_sibling exPathFlds "r" exPathVals).1,
   (exportRow_path_sibling exPathFlds "r" exPathVals).2.1 [] (.otherP exPathInfo [])
     (.vStr "p1") [(.otherP exAInfo [], .vStr "x")] rfl (by decide) (by decide),
   (exportRow_path_sibling exNoPathFlds "r" [Value.vStr "x"]).2.2 (by decide)⟩

/-- Claim C10: a dynamic-array or set field whose JSON value is an array
always succeeds; the container is emptied and refilled with exactly one
element per JSON entry (each the container entry codec's output, whether
or not the codec succeeded — no removal), so the final element count
equals the JSON array's length; a set is additionally rehashed once. -/
theorem readStructEntry_dynamic_array_set (cfg : TableConfig) (r c : String) (es : List Json) :
    (∀ info inner cur,
      (readStructEntry cfg (.jarr es) r c (.arrayP info inner) cur).ok = true
      ∧ (readStructEntry cfg (.jarr es) r c (.arrayP info inner) cur).val
          = .vArr (readArrLoop cfg r c inner es 0).1
      ∧ (readArrLoop cfg r c inner es 0).1.length = es.length)
    ∧ (∀ info elem cur,
      (readStructEntry cfg (.jarr es) r c (.setP info elem) cur).ok = true
      ∧ (readStructEntry cfg (.jarr es) r c (.setP info elem) cur).val
          = .vSet (readArrLoop cfg r c elem es 0).1 1
      ∧ (readArrLoop cfg r c elem es 0).1.length = es.length)
    ∧ (∀ (inner : FProperty) (i k : Nat),
        ((readArrLoop cfg r c inner es i).1)[k]? =
          (es[k]?).map fun e =>
            (readContainerEntry cfg e r c (i + k) inner (defaultValue inner)).val) := by
  refine ⟨?_, ?_, fun inner => readArrLoop_get cfg r c inner es⟩
  · intro info inner cur
    exact ⟨by simp [readStructEntry, Json.tryGetArray],
      by simp [readStructEntry, Json.tryGetArray],
      readArrLoop_length cfg r c inner es 0⟩
  · intro info elem cur
    exact ⟨by simp [readStructEntry, Json.tryGetArray],
      by simp [readStructEntry, Json.tryGetArray],
      readArrLoop_length cfg r c elem es 0⟩

end Gridly
